import Mathlib

/-!
Shallow embedding of the fantasy-baseball core: the category rating
computation (`_analyze_categories` and `_generate_recommendations` in
`fantasy_baseball/analytics/team_analyzer.py`) and the rotisserie standings
computation (`project_team_standings` in
`fantasy_baseball/import/nfbc_manual_import.py`).

Numbers are modelled as exact rationals.  Python `int()` truncates toward
zero, modelled by `pyInt`.  A pandas weighted average whose weight column
sums to zero produces NaN and the later `int(...)` call raises, so such a
division is modelled as `Option ℚ` with `none` standing for the
NaN/exception path.
-/

/-- A player stats mapping, e.g. `[("batting_avg", 3/10), ("home_runs", 20)]`. -/
abbrev StatDict := List (String × ℚ)

/-- Dictionary lookup: `d[k]` / `k in d`. -/
def lookupStat (d : StatDict) (k : String) : Option ℚ :=
  (d.find? (fun p => p.1 == k)).map (fun p => p.2)

/-- A rostered player record as consumed by `_analyze_categories`:
its fantasy position and its (possibly missing) stats dict. -/
structure Player where
  fantasy_position : String
  stats : Option StatDict

/-- `p.get('stats')` truthiness: present and non-empty. -/
def statsTruthy (p : Player) : Bool :=
  match p.stats with
  | none => false
  | some d => !d.isEmpty

/-- The stats dict of a player, `{}` when missing. -/
def statsOf (p : Player) : StatDict :=
  p.stats.getD []

/-- Batter filter (line 72): `p.get('stats') and 'batting_avg' in p.get('stats', {})`. -/
def isBatter (p : Player) : Bool :=
  statsTruthy p && (lookupStat (statsOf p) "batting_avg").isSome

/-- Pitcher filter (line 75): `p.get('stats') and 'era' in p.get('stats', {})`. -/
def isPitcher (p : Player) : Bool :=
  statsTruthy p && (lookupStat (statsOf p) "era").isSome

/-- `k in df`: a DataFrame built from a list of dicts has column `k`
iff some row has the key. -/
def hasCol (rows : List StatDict) (k : String) : Bool :=
  rows.any (fun d => (lookupStat d k).isSome)

/-- `df[k].sum()`: pandas sums skip missing entries (NaN), so this sums the
value of `k` over exactly the rows that have it. -/
def colSum (rows : List StatDict) (k : String) : ℚ :=
  (rows.filterMap (fun d => lookupStat d k)).sum

/-- `(df[k1] * df[k2]).sum()`: the product is NaN when either factor is
missing and NaN is skipped by the sum, so this sums products over rows
having both keys. -/
def colProdSum (rows : List StatDict) (k1 k2 : String) : ℚ :=
  (rows.filterMap (fun d =>
    match lookupStat d k1, lookupStat d k2 with
    | some a, some b => some (a * b)
    | _, _ => none)).sum

/-- Python `int()` applied to an exact value: truncation toward zero. -/
def pyInt (q : ℚ) : ℤ :=
  if q < 0 then Int.ceil q else Int.floor q

/-- Rating of a "higher is better" counting category (lines 104, 109, 114,
161, 166, 171): `max(1, min(10, int((total / baseline) * 5) + 5))`. -/
def rateCount (total baseline : ℚ) : ℤ :=
  max 1 (min 10 (pyInt ((total / baseline) * 5) + 5))

/-- Rating of a rate category from its signed difference and spread
constant (lines 120, 150, 156): `max(1, min(10, int((diff / spread) * 5) + 5))`. -/
def rateSpread (diff spread : ℚ) : ℤ :=
  max 1 (min 10 (pyInt ((diff / spread) * 5) + 5))

/-- `league_avgs.get(k)` truthiness guard: the key must be present with a
non-zero value for the category to be rated. -/
def baselineOk (avgs : StatDict) (k : String) : Option ℚ :=
  match lookupStat avgs k with
  | some v => if v = 0 then none else some v
  | none => none

/-- Float division with `none` for a zero denominator (NaN/inf): the later
`int(...)` on such a value raises, aborting the analysis. -/
def div0 (num den : ℚ) : Option ℚ :=
  if den = 0 then none else some (num / den)

/-- One conditionally-emitted rating: present only when the baseline guard
passes. -/
def optRating (avgs : StatDict) (k : String) (f : ℚ → ℤ) : List (String × ℤ) :=
  match baselineOk avgs k with
  | some b => [(k, f b)]
  | none => []

/-- Plate-appearance-weighted team batting average (lines 97-100):
computed when both columns exist, else `0`; `none` models the NaN produced
when the plate-appearance column sums to zero. -/
def teamAvgOpt (rows : List StatDict) : Option ℚ :=
  if hasCol rows "plate_appearances" && hasCol rows "batting_avg" then
    div0 (colProdSum rows "batting_avg" "plate_appearances")
      (colSum rows "plate_appearances")
  else some 0

/-- Innings-weighted team ERA (lines 126-130, 136-137). -/
def teamEraOpt (rows : List StatDict) : Option ℚ :=
  if hasCol rows "innings_pitched" then
    if hasCol rows "era" then
      div0 (colProdSum rows "era" "innings_pitched") (colSum rows "innings_pitched")
    else some 0
  else some 0

/-- Innings-weighted team WHIP (lines 126, 132-135, 136-138). -/
def teamWhipOpt (rows : List StatDict) : Option ℚ :=
  if hasCol rows "innings_pitched" then
    if hasCol rows "whip" then
      div0 (colProdSum rows "whip" "innings_pitched") (colSum rows "innings_pitched")
    else some 0
  else some 0

/-- The batting half of `_analyze_categories` (lines 88-121), for a
non-empty batter DataFrame: home-run, RBI, stolen-base and batting-average
ratings in insertion order.  `none` when the batting-average rating is
computed from a NaN team average (the code raises there). -/
def battingRatings (rows : List StatDict) (avgs : StatDict) : Option (List (String × ℤ)) :=
  let hrTotal := if hasCol rows "home_runs" then colSum rows "home_runs" else 0
  let rbiTotal := if hasCol rows "rbi" then colSum rows "rbi" else 0
  let sbTotal := if hasCol rows "stolen_bases" then colSum rows "stolen_bases" else 0
  let base :=
    optRating avgs "home_runs" (fun b => rateCount hrTotal b) ++
    optRating avgs "rbi" (fun b => rateCount rbiTotal b) ++
    optRating avgs "stolen_bases" (fun b => rateCount sbTotal b)
  match baselineOk avgs "batting_avg" with
  | none => some base
  | some b =>
    match teamAvgOpt rows with
    | none => none
    | some avg => some (base ++ [("batting_avg", rateSpread (avg - b) (3 / 100))])

/-- The pitching half of `_analyze_categories` (lines 124-172), for a
non-empty pitcher DataFrame: ERA, WHIP, wins, saves and strikeout ratings
in insertion order.  `none` when a rate rating is computed from a NaN
weighted average. -/
def pitchingRatings (rows : List StatDict) (avgs : StatDict) : Option (List (String × ℤ)) :=
  let winsTotal := if hasCol rows "wins" then colSum rows "wins" else 0
  let savesTotal := if hasCol rows "saves" then colSum rows "saves" else 0
  let kTotal := if hasCol rows "strikeouts" then colSum rows "strikeouts" else 0
  let counting :=
    optRating avgs "wins" (fun b => rateCount winsTotal b) ++
    optRating avgs "saves" (fun b => rateCount savesTotal b) ++
    optRating avgs "strikeouts" (fun b => rateCount kTotal b)
  let eraPart : Option (List (String × ℤ)) :=
    match baselineOk avgs "era" with
    | none => some []
    | some b =>
      match teamEraOpt rows with
      | none => none
      | some e => some [("era", rateSpread (b - e) (1 / 2))]
  let whipPart : Option (List (String × ℤ)) :=
    match baselineOk avgs "whip" with
    | none => some []
    | some b =>
      match teamWhipOpt rows with
      | none => none
      | some w => some [("whip", rateSpread (b - w) (1 / 10))]
  match eraPart, whipPart with
  | some ep, some wp => some (ep ++ wp ++ counting)
  | _, _ => none

/-- `_analyze_categories` (lines 69-174): filter batters and pitchers, and
emit the batting ratings followed by the pitching ratings.  `none` models
the exception raised when `int()` is applied to a NaN weighted average. -/
def analyzeCategories (players : List Player) (avgs : StatDict) : Option (List (String × ℤ)) :=
  let batterRows := (players.filter isBatter).map statsOf
  let pitcherRows := (players.filter isPitcher).map statsOf
  let brOpt := if batterRows.isEmpty then some ([] : List (String × ℤ))
               else battingRatings batterRows avgs
  let prOpt := if pitcherRows.isEmpty then some ([] : List (String × ℤ))
               else pitchingRatings pitcherRows avgs
  match brOpt, prOpt with
  | some br, some pr => some (br ++ pr)
  | _, _ => none

/-- `_get_roster_breakdown` inner update (lines 61-65): create-or-increment
the count for a fantasy position, preserving insertion order. -/
def bumpPos (m : List (String × Nat)) (pos : String) : List (String × Nat) :=
  match m with
  | [] => [(pos, 1)]
  | (k, n) :: rest => if k == pos then (k, n + 1) :: rest else (k, n) :: bumpPos rest pos

/-- `_get_roster_breakdown` (lines 57-67): position → slot count. -/
def rosterBreakdown (players : List Player) : List (String × Nat) :=
  players.foldl (fun m p => bumpPos m p.fantasy_position) []

/-- Dictionary lookup in a roster breakdown. -/
def lookupPos (m : List (String × Nat)) (k : String) : Option Nat :=
  (m.find? (fun p => p.1 == k)).map (fun p => p.2)

/-- `k in breakdown and breakdown[k] < threshold` (lines 232, 235): true only
when the position key is present with a count below the threshold. -/
def posRule (m : List (String × Nat)) (k : String) (threshold : Nat) : Bool :=
  match lookupPos m k with
  | some n => n < threshold
  | none => false

/-- `_generate_recommendations` (lines 227-270): fixed rule table evaluated
in order over the roster breakdown, strength list and weakness list. -/
def genRecommendations (breakdown : List (String × Nat))
    (strengths weaknesses : List String) : List String :=
  (if posRule breakdown "OF" 3 then ["Need to add more outfielders"] else []) ++
  (if posRule breakdown "RP" 2 then ["Add more relievers to compete in saves"] else []) ++
  (if weaknesses.contains "stolen_bases" then
    ["Target speed players to improve stolen bases category"] else []) ++
  (if weaknesses.contains "saves" then
    ["Add closers to improve in the saves category"] else []) ++
  (if weaknesses.contains "era" && weaknesses.contains "whip" then
    ["Consider streaming only high-quality pitchers to improve ratios"] else []) ++
  (if weaknesses.contains "batting_avg" then
    ["Look for high-average hitters to improve batting average"] else []) ++
  (if weaknesses.length + 2 < strengths.length then
    ["Consider trading from your strengths to address weaknesses"] else []) ++
  (let pitchingCats : List String := ["era", "whip", "strikeouts", "wins", "saves"]
   let hittingCats : List String := ["batting_avg", "home_runs", "rbi", "stolen_bases"]
   let ps := strengths.filter (fun c => pitchingCats.contains c)
   let hs := strengths.filter (fun c => hittingCats.contains c)
   let pw := weaknesses.filter (fun c => pitchingCats.contains c)
   let hw := weaknesses.filter (fun c => hittingCats.contains c)
   if 3 ≤ ps.length && 2 ≤ hw.length then ["Consider trading pitching for hitting help"]
   else if 3 ≤ hs.length && 2 ≤ pw.length then ["Consider trading hitting for pitching help"]
   else [])

/-! ## Rotisserie standings (`project_team_standings`) -/

/-- One latest-season batting stat row as fetched for a roster entry; a
`none` field models a SQL NULL, turned into `0` by `stats[i] or 0`. -/
structure BattingRow where
  avg : Option ℚ
  hr : Option ℚ
  r : Option ℚ
  rbi : Option ℚ
  sb : Option ℚ

/-- One latest-season pitching stat row. -/
structure PitchingRow where
  era : Option ℚ
  whip : Option ℚ
  k : Option ℚ
  w : Option ℚ
  sv : Option ℚ

/-- `v or 0`: NULL becomes `0`. -/
def orZero (v : Option ℚ) : ℚ :=
  v.getD 0

/-- Accumulation of a team's batting-average sum (lines 457-462): roster
entries with no stat row (`none`) leave the accumulator unchanged. -/
def accBattingAvg (entries : List (Option BattingRow)) : ℚ :=
  entries.foldl (fun acc e =>
    match e with
    | none => acc
    | some st => acc + orZero st.avg) 0

/-- Team batting average (lines 457-467): accumulated sum, divided by the
number of roster entries only when that number is positive. -/
def teamBattingAvg (entries : List (Option BattingRow)) : ℚ :=
  let total := accBattingAvg entries
  if 0 < entries.length then total / entries.length else total

/-- Accumulation of a team's ERA sum over pitchers (lines 503-507). -/
def accEra (entries : List (Option PitchingRow)) : ℚ :=
  entries.foldl (fun acc e =>
    match e with
    | none => acc
    | some st => acc + orZero st.era) 0

/-- Accumulation of a team's WHIP sum over pitchers (lines 503-508). -/
def accWhip (entries : List (Option PitchingRow)) : ℚ :=
  entries.foldl (fun acc e =>
    match e with
    | none => acc
    | some st => acc + orZero st.whip) 0

/-- Team ERA (lines 513-515): divided by the pitcher count only when positive. -/
def teamEra (entries : List (Option PitchingRow)) : ℚ :=
  if 0 < entries.length then accEra entries / entries.length else accEra entries

/-- Team WHIP (lines 513-515). -/
def teamWhip (entries : List (Option PitchingRow)) : ℚ :=
  if 0 < entries.length then accWhip entries / entries.length else accWhip entries

/-- `sorted(teams.values(), key=lambda t: value)` (lines 528-531): stable
sort by the category value, ascending for the lower-is-better categories
(era, whip) and descending otherwise. -/
def sortByCat (vals : List (String × ℚ)) (lowerBetter : Bool) : List (String × ℚ) :=
  if lowerBetter then vals.insertionSort (fun a b => a.2 ≤ b.2)
  else vals.insertionSort (fun a b => b.2 ≤ a.2)

/-- `for i, team_name in enumerate(sorted_teams, 1): rankings[team_name][cat] = i`
(lines 534-538): each team of the sorted order is paired with its
1-based position. -/
def assignRanks (vals : List (String × ℚ)) (lowerBetter : Bool) : List (String × Nat) :=
  ((sortByCat vals lowerBetter).enum).map (fun p => (p.2.1, p.1 + 1))

/-! ## Helper lemmas -/

/-- Both clamps in one: `max 1 (min 10 z)` lies in `[1, 10]`. -/
lemma clamp_bounds (z : ℤ) : 1 ≤ max 1 (min 10 z) ∧ max 1 (min 10 z) ≤ 10 :=
  ⟨le_max_left _ _, max_le (by norm_num) (min_le_left _ _)⟩

lemma rateCount_bounds (t b : ℚ) : 1 ≤ rateCount t b ∧ rateCount t b ≤ 10 := by
  rw [rateCount]; exact clamp_bounds _

lemma rateSpread_bounds (d s : ℚ) : 1 ≤ rateSpread d s ∧ rateSpread d s ≤ 10 := by
  rw [rateSpread]; exact clamp_bounds _

lemma pyInt_of_nonneg {q : ℚ} (h : 0 ≤ q) : pyInt q = Int.floor q := by
  rw [pyInt, if_neg (not_lt.mpr h)]

lemma pyInt_of_neg {q : ℚ} (h : q < 0) : pyInt q = Int.ceil q := by
  rw [pyInt, if_pos h]

/-! ## Claim theorems -/

/-- Claim C6: for a counting category with team total `t ≥ 0` and baseline
`b > 0`, the emitted rating is `clamp(1, 10, floor((t/b)*5) + 5)`. -/
theorem counting_rating_eq_floor_formula (t b : ℚ) (ht : 0 ≤ t) (hb : 0 < b) :
    rateCount t b = max 1 (min 10 (Int.floor ((t / b) * 5) + 5)) := by
  have h5 : (0 : ℚ) ≤ (t / b) * 5 := by positivity
  rw [rateCount, pyInt_of_nonneg h5]

/-- Witness for C6, the spec scenario: baseline 20, total 40 gives rating 10. -/
theorem counting_rating_eq_floor_formula_witness : rateCount 40 20 = 10 := by
  have h := counting_rating_eq_floor_formula 40 20 (by norm_num) (by norm_num)
  rw [h]; norm_num

/-- Claim C2 counterexample: a team whose home-run total exactly equals the
20-home-run baseline is rated 10, not 5. -/
theorem team_at_baseline_rated_ten :
    analyzeCategories [⟨"OF", some [("batting_avg", 3 / 10), ("home_runs", 20)]⟩]
      [("home_runs", 20)] = some [("home_runs", 10)] ∧ (10 : ℤ) ≠ 5 := by
  constructor
  · simp [analyzeCategories, battingRatings, pitchingRatings, optRating, baselineOk,
      teamAvgOpt, teamEraOpt, teamWhipOpt, div0, rateCount, pyInt, hasCol, colSum,
      colProdSum, lookupStat, isBatter, isPitcher, statsTruthy, statsOf, List.filter,
      List.find?]
  · decide

/-- Claim C2, amended: a team exactly at a non-zero baseline on a counting
category is rated 10, and a team with total zero is rated 5. -/
theorem counting_rating_baseline_and_zero (b : ℚ) (hb : b ≠ 0) :
    rateCount b b = 10 ∧ rateCount 0 b = 5 := by
  constructor
  · rw [rateCount, div_self hb]; norm_num [pyInt]
  · rw [rateCount, zero_div]; norm_num [pyInt]

/-- Witness for the amended C2 at baseline 20. -/
theorem counting_rating_baseline_and_zero_witness :
    rateCount 20 20 = 10 ∧ rateCount 0 20 = 5 :=
  counting_rating_baseline_and_zero 20 (by norm_num)

/-- Claim C7 counterexample: for a batting average 0.001 below the baseline
the code rates 5 (truncation toward zero), while the claimed floor formula
gives 4. -/
theorem rate_rating_floor_counterexample :
    rateSpread (-(1 / 1000)) (3 / 100) = 5 ∧
    max 1 (min 10 (Int.floor (((-(1 / 1000) : ℚ)) / (3 / 100) * 5) + 5)) = 4 := by
  constructor
  · have h : ((-(1 / 1000) : ℚ)) / (3 / 100) * 5 = -(1 / 6) := by norm_num
    rw [rateSpread, h, pyInt_of_neg (by norm_num)]
    have hc : Int.ceil ((-(1 / 6)) : ℚ) = 0 := by norm_num
    rw [hc]; norm_num
  · norm_num

/-- Claim C7, amended: the rate rating is
`clamp(1, 10, int((d/s)*5) + 5)` where `int` truncates toward zero —
floor of the scaled quotient when `d ≥ 0`, ceiling when `d < 0`. -/
theorem rate_rating_trunc_formula (d s : ℚ) (hs : 0 < s) :
    (0 ≤ d → rateSpread d s = max 1 (min 10 (Int.floor ((d / s) * 5) + 5))) ∧
    (d < 0 → rateSpread d s = max 1 (min 10 (Int.ceil ((d / s) * 5) + 5))) := by
  constructor
  · intro hd
    have h5 : (0 : ℚ) ≤ (d / s) * 5 := by positivity
    rw [rateSpread, pyInt_of_nonneg h5]
  · intro hd
    have h5 : (d / s) * 5 < 0 := by
      have hq : d / s < 0 := div_neg_of_neg_of_pos hd hs
      nlinarith
    rw [rateSpread, pyInt_of_neg h5]

/-- Witness for the amended C7 on both signs of the deviation. -/
theorem rate_rating_trunc_formula_witness :
    rateSpread (1 / 100) (3 / 100) =
      max 1 (min 10 (Int.floor (((1 / 100 : ℚ)) / (3 / 100) * 5) + 5)) ∧
    rateSpread (-(1 / 1000)) (1 / 10) =
      max 1 (min 10 (Int.ceil (((-(1 / 1000) : ℚ)) / (1 / 10) * 5) + 5)) :=
  ⟨(rate_rating_trunc_formula (1 / 100) (3 / 100) (by norm_num)).1 (by norm_num),
   (rate_rating_trunc_formula (-(1 / 1000)) (1 / 10) (by norm_num)).2 (by norm_num)⟩

/-- Claim C4: on a pitcher whose only stat row has zero innings pitched the
weighted ERA is 0/0 = NaN and the later `int(...)` raises, so the analysis
aborts instead of defaulting the rate to 0. -/
theorem zero_innings_analysis_fails :
    analyzeCategories [⟨"P", some [("era", 3), ("innings_pitched", 0)]⟩]
      [("era", 4)] = none := by
  simp [analyzeCategories, battingRatings, pitchingRatings, optRating, baselineOk,
    teamAvgOpt, teamEraOpt, teamWhipOpt, div0, hasCol, colSum, colProdSum, lookupStat,
    isBatter, isPitcher, statsTruthy, statsOf, List.filter, List.find?]

/-- Claim C3 counterexample: with a batter whose plate appearances sum to
zero, the weighted batting average is NaN and the rating computation
raises (returns no ratings) on finite inputs. -/
theorem zero_plate_appearances_analysis_fails :
    analyzeCategories [⟨"C", some [("batting_avg", 3 / 10), ("plate_appearances", 0)]⟩]
      [("batting_avg", 26 / 100)] = none := by
  simp [analyzeCategories, battingRatings, pitchingRatings, optRating, baselineOk,
    teamAvgOpt, teamEraOpt, teamWhipOpt, div0, hasCol, colSum, colProdSum, lookupStat,
    isBatter, isPitcher, statsTruthy, statsOf, List.filter, List.find?]

/-- Claim C5 counterexample: with 0 outfield and 0 relief-pitcher slots the
position keys are absent from the roster breakdown (an empty roster gives
an empty breakdown), so neither position recommendation is emitted. -/
theorem empty_breakdown_no_position_recommendations :
    rosterBreakdown [] = [] ∧ lookupPos [] "OF" = none ∧ lookupPos [] "RP" = none ∧
    genRecommendations (rosterBreakdown []) [] [] = [] := by
  refine ⟨rfl, rfl, rfl, rfl⟩

/-- Claim C5, amended: the outfielder and reliever recommendations are
emitted, in that order and ahead of all other rules, exactly when the
position keys are present in the breakdown with counts below 3 and 2. -/
theorem recommendations_when_keys_present (bd : List (String × Nat))
    (strengths weaknesses : List String) (a b : Nat)
    (hOF : lookupPos bd "OF" = some a) (ha : a < 3)
    (hRP : lookupPos bd "RP" = some b) (hb : b < 2) :
    (genRecommendations bd strengths weaknesses).take 2 =
      ["Need to add more outfielders", "Add more relievers to compete in saves"] := by
  have h1 : posRule bd "OF" 3 = true := by
    rw [posRule, hOF]; exact decide_eq_true ha
  have h2 : posRule bd "RP" 2 = true := by
    rw [posRule, hRP]; exact decide_eq_true hb
  rw [genRecommendations, h1, h2]
  simp

/-- Witness for the amended C5: a breakdown with 2 OF and 1 RP slots. -/
theorem recommendations_when_keys_present_witness :
    (genRecommendations [("OF", 2), ("RP", 1)] [] []).take 2 =
      ["Need to add more outfielders", "Add more relievers to compete in saves"] :=
  recommendations_when_keys_present [("OF", 2), ("RP", 1)] [] [] 2 1 rfl
    (by norm_num) rfl (by norm_num)

/-- Claim C1: in the 2-team scenario with ERA 3.00 and 4.50 the code ranks
the better (lower-ERA) team 1 and the worse team 2 — the opposite of the
rotisserie convention stated in its own comment, which awards 1 point to
last place. -/
theorem era_rank_assignment_at_two_teams :
    assignRanks [("Team A", 3), ("Team B", 9 / 2)] true =
      [("Team A", 1), ("Team B", 2)] := by
  have hs : sortByCat [("Team A", 3), ("Team B", 9 / 2)] true =
      [("Team A", 3), ("Team B", 9 / 2)] := by
    rw [sortByCat, if_pos rfl]
    simp [List.insertionSort, List.orderedInsert]
    norm_num
  rw [assignRanks, hs]
  rfl

/-! ## Rank assignment properties -/

lemma sortByCat_perm (vals : List (String × ℚ)) (lb : Bool) :
    (sortByCat vals lb).Perm vals := by
  cases lb <;> simp only [sortByCat, if_true, if_false, Bool.false_eq_true,
    reduceIte] <;> exact List.perm_insertionSort _ _

lemma length_sortByCat (vals : List (String × ℚ)) (lb : Bool) :
    (sortByCat vals lb).length = vals.length :=
  (sortByCat_perm vals lb).length_eq

lemma map_fst_assignRanks (vals : List (String × ℚ)) (lb : Bool) :
    (assignRanks vals lb).map Prod.fst = (sortByCat vals lb).map Prod.fst := by
  rw [assignRanks, List.map_map]
  have h : (Prod.fst ∘ fun p : ℕ × (String × ℚ) => (p.2.1, p.1 + 1)) =
      Prod.fst ∘ Prod.snd := rfl
  rw [h, ← List.map_map, List.enum_map_snd]

lemma map_snd_assignRanks (vals : List (String × ℚ)) (lb : Bool) :
    (assignRanks vals lb).map Prod.snd = (List.range vals.length).map (fun i => i + 1) := by
  rw [assignRanks, List.map_map]
  have h : (Prod.snd ∘ fun p : ℕ × (String × ℚ) => (p.2.1, p.1 + 1)) =
      (fun i => i + 1) ∘ Prod.fst := rfl
  rw [h, ← List.map_map, List.enum_map_fst, length_sortByCat]

lemma two_mul_sum_range_succ (n : ℕ) :
    2 * ((List.range n).map (fun i => i + 1)).sum = n * (n + 1) := by
  induction n with
  | zero => simp
  | succ n ih =>
    rw [List.range_succ, List.map_append, List.sum_append]
    calc 2 * (((List.range n).map (fun i => i + 1)).sum + ([n].map (fun i => i + 1)).sum)
        = 2 * ((List.range n).map (fun i => i + 1)).sum + 2 * (n + 1) := by
          simp; ring
      _ = n * (n + 1) + 2 * (n + 1) := by rw [ih]
      _ = (n + 1) * (n + 1 + 1) := by ring

/-- Claim C8: per category the assigned ranks are exactly a relabelling of
the teams (ties or not): the ranked team names are a permutation of the
input names and stay distinct when the input names are distinct, every
rank lies in `[1, N]`, the ranks are pairwise distinct, and they sum to
`N(N+1)/2`. -/
theorem category_ranks_permutation (vals : List (String × ℚ)) (lb : Bool)
    (hnd : (vals.map Prod.fst).Nodup) :
    ((assignRanks vals lb).map Prod.fst).Perm (vals.map Prod.fst) ∧
    ((assignRanks vals lb).map Prod.fst).Nodup ∧
    ((assignRanks vals lb).map Prod.snd).Nodup ∧
    (∀ p ∈ assignRanks vals lb, 1 ≤ p.2 ∧ p.2 ≤ vals.length) ∧
    ((assignRanks vals lb).map Prod.snd).sum = vals.length * (vals.length + 1) / 2 := by
  have hperm : ((assignRanks vals lb).map Prod.fst).Perm (vals.map Prod.fst) := by
    rw [map_fst_assignRanks]; exact (sortByCat_perm vals lb).map Prod.fst
  refine ⟨hperm, hperm.nodup_iff.mpr hnd, ?_, ?_, ?_⟩
  · rw [map_snd_assignRanks]
    exact (List.nodup_range _).map (fun a b hab => by omega)
  · intro p hp
    have h2 : p.2 ∈ (assignRanks vals lb).map Prod.snd := List.mem_map_of_mem Prod.snd hp
    rw [map_snd_assignRanks] at h2
    rcases List.mem_map.mp h2 with ⟨i, hi, hpi⟩
    have hir := List.mem_range.mp hi
    omega
  · rw [map_snd_assignRanks]
    have h2m := two_mul_sum_range_succ vals.length
    have hP : vals.length * (vals.length + 1) =
        ((List.range vals.length).map (fun i => i + 1)).sum * 2 := by rw [← h2m]; ring
    rw [hP, Nat.mul_div_cancel _ (by norm_num)]

/-- Witness for C8 on a concrete 3-team league. -/
theorem category_ranks_permutation_witness :
    ((assignRanks [("A", (5 : ℚ)), ("B", 3), ("C", 4)] false).map Prod.snd).sum =
      3 * (3 + 1) / 2 := by
  have h := category_ranks_permutation [("A", (5 : ℚ)), ("B", 3), ("C", 4)] false (by simp)
  simpa using h.2.2.2.2

/-! ## Team aggregation properties -/

lemma accBattingAvg_foldl (bs : List (Option BattingRow)) (init : ℚ) :
    bs.foldl (fun acc e =>
        match e with
        | none => acc
        | some st => acc + orZero st.avg) init =
      init + (bs.map (fun e =>
        match e with
        | none => (0 : ℚ)
        | some st => orZero st.avg)).sum := by
  induction bs generalizing init with
  | nil => simp
  | cons e t ih => cases e <;> simp [ih] <;> ring

lemma accEra_foldl (ps : List (Option PitchingRow)) (init : ℚ) :
    ps.foldl (fun acc e =>
        match e with
        | none => acc
        | some st => acc + orZero st.era) init =
      init + (ps.map (fun e =>
        match e with
        | none => (0 : ℚ)
        | some st => orZero st.era)).sum := by
  induction ps generalizing init with
  | nil => simp
  | cons e t ih => cases e <;> simp [ih] <;> ring

lemma accWhip_foldl (ps : List (Option PitchingRow)) (init : ℚ) :
    ps.foldl (fun acc e =>
        match e with
        | none => acc
        | some st => acc + orZero st.whip) init =
      init + (ps.map (fun e =>
        match e with
        | none => (0 : ℚ)
        | some st => orZero st.whip)).sum := by
  induction ps generalizing init with
  | nil => simp
  | cons e t ih => cases e <;> simp [ih] <;> ring

/-- Claim C9: a team's batting-average category value is the sum of the
latest-season per-entry batting averages (0 for roster entries with no
stat row, which still count in the denominator) divided by the entry
count, and the division happens only for a positive count — a team with no
batters or no pitchers keeps the initial 0 values. -/
theorem team_rate_stats_closed_form (bs : List (Option BattingRow))
    (ps : List (Option PitchingRow)) :
    (bs ≠ [] → teamBattingAvg bs =
      (bs.map (fun e =>
        match e with
        | none => (0 : ℚ)
        | some st => orZero st.avg)).sum / bs.length) ∧
    (bs = [] → teamBattingAvg bs = 0) ∧
    (ps ≠ [] → teamEra ps =
      (ps.map (fun e =>
        match e with
        | none => (0 : ℚ)
        | some st => orZero st.era)).sum / ps.length ∧
      teamWhip ps =
      (ps.map (fun e =>
        match e with
        | none => (0 : ℚ)
        | some st => orZero st.whip)).sum / ps.length) ∧
    (ps = [] → teamEra ps = 0 ∧ teamWhip ps = 0) := by
  refine ⟨?_, ?_, ?_, ?_⟩
  · intro hne
    have hlen : 0 < bs.length := List.length_pos.mpr hne
    rw [teamBattingAvg]
    simp only [hlen, if_true, reduceIte]
    rw [accBattingAvg, accBattingAvg_foldl, zero_add]
  · intro he
    subst he
    rfl
  · intro hne
    have hlen : 0 < ps.length := List.length_pos.mpr hne
    constructor
    · rw [teamEra]
      simp only [hlen, if_true, reduceIte]
      rw [accEra, accEra_foldl, zero_add]
    · rw [teamWhip]
      simp only [hlen, if_true, reduceIte]
      rw [accWhip, accWhip_foldl, zero_add]
  · intro he
    subst he
    exact ⟨rfl, rfl⟩

/-- Witness for C9: two batter roster entries, one with no stat row. -/
theorem team_rate_stats_closed_form_witness :
    teamBattingAvg [some ⟨some (3 / 10), none, none, none, none⟩, none] = 3 / 20 := by
  have h := (team_rate_stats_closed_form
    [some ⟨some (3 / 10), none, none, none, none⟩, none] []).1 (by simp)
  rw [h]
  norm_num [orZero]

/-! ## Rating membership analysis -/

lemma optRating_cases {avgs : StatDict} {k : String} {f : ℚ → ℤ} {p : String × ℤ}
    (hp : p ∈ optRating avgs k f) : ∃ b, p = (k, f b) := by
  rw [optRating] at hp
  rcases h : baselineOk avgs k with _ | b <;> rw [h] at hp <;> simp at hp
  exact ⟨b, by rw [hp]⟩

lemma mem_optRating_bounds {avgs : StatDict} {k : String} {f : ℚ → ℤ} {p : String × ℤ}
    (hf : ∀ b, 1 ≤ f b ∧ f b ≤ 10) (hp : p ∈ optRating avgs k f) :
    (1 ≤ p.2 ∧ p.2 ≤ 10) ∧ p.1 = k := by
  rcases optRating_cases hp with ⟨b, rfl⟩
  exact ⟨hf b, rfl⟩

lemma battingRatings_spec (rows : List StatDict) (avgs : StatDict)
    (rs : List (String × ℤ)) (h : battingRatings rows avgs = some rs) :
    ∀ p ∈ rs, (1 ≤ p.2 ∧ p.2 ≤ 10) ∧
      p.1 ∈ (["home_runs", "rbi", "stolen_bases", "batting_avg"] : List String) := by
  intro p hp
  simp only [battingRatings] at h
  have hbase : ∀ q ∈ optRating avgs "home_runs"
        (fun b => rateCount (if hasCol rows "home_runs" then colSum rows "home_runs" else 0) b) ++
      optRating avgs "rbi"
        (fun b => rateCount (if hasCol rows "rbi" then colSum rows "rbi" else 0) b) ++
      optRating avgs "stolen_bases"
        (fun b => rateCount (if hasCol rows "stolen_bases" then colSum rows "stolen_bases" else 0) b),
      (1 ≤ q.2 ∧ q.2 ≤ 10) ∧
        q.1 ∈ (["home_runs", "rbi", "stolen_bases", "batting_avg"] : List String) := by
    intro q hq
    rcases List.mem_append.mp hq with h12 | h3
    · rcases List.mem_append.mp h12 with h1 | h2
      · have hb := mem_optRating_bounds (fun b => rateCount_bounds _ b) h1
        exact ⟨hb.1, by rw [hb.2]; simp⟩
      · have hb := mem_optRating_bounds (fun b => rateCount_bounds _ b) h2
        exact ⟨hb.1, by rw [hb.2]; simp⟩
    · have hb := mem_optRating_bounds (fun b => rateCount_bounds _ b) h3
      exact ⟨hb.1, by rw [hb.2]; simp⟩
  rcases hba : baselineOk avgs "batting_avg" with _ | b
  · rw [hba] at h
    simp only [Option.some.injEq] at h
    subst h
    exact hbase p hp
  · rw [hba] at h
    rcases hta : teamAvgOpt rows with _ | avg
    · rw [hta] at h
      cases h
    · rw [hta] at h
      simp only [Option.some.injEq] at h
      subst h
      rcases List.mem_append.mp hp with h1 | h2
      · exact hbase p h1
      · simp only [List.mem_singleton] at h2
        subst h2
        exact ⟨rateSpread_bounds _ _, by simp⟩

lemma pitchingRatings_spec (rows : List StatDict) (avgs : StatDict)
    (rs : List (String × ℤ)) (h : pitchingRatings rows avgs = some rs) :
    ∀ p ∈ rs, (1 ≤ p.2 ∧ p.2 ≤ 10) ∧
      p.1 ∈ (["era", "whip", "wins", "saves", "strikeouts"] : List String) := by
  intro p hp
  simp only [pitchingRatings] at h
  have hcount : ∀ q ∈ optRating avgs "wins"
        (fun b => rateCount (if hasCol rows "wins" then colSum rows "wins" else 0) b) ++
      optRating avgs "saves"
        (fun b => rateCount (if hasCol rows "saves" then colSum rows "saves" else 0) b) ++
      optRating avgs "strikeouts"
        (fun b => rateCount (if hasCol rows "strikeouts" then colSum rows "strikeouts" else 0) b),
      (1 ≤ q.2 ∧ q.2 ≤ 10) ∧
        q.1 ∈ (["era", "whip", "wins", "saves", "strikeouts"] : List String) := by
    intro q hq
    rcases List.mem_append.mp hq with h12 | h3
    · rcases List.mem_append.mp h12 with h1 | h2
      · have hb := mem_optRating_bounds (fun b => rateCount_bounds _ b) h1
        exact ⟨hb.1, by rw [hb.2]; simp⟩
      · have hb := mem_optRating_bounds (fun b => rateCount_bounds _ b) h2
        exact ⟨hb.1, by rw [hb.2]; simp⟩
    · have hb := mem_optRating_bounds (fun b => rateCount_bounds _ b) h3
      exact ⟨hb.1, by rw [hb.2]; simp⟩
  rcases hba : baselineOk avgs "era" with _ | b <;> rw [hba] at h
  case none =>
    rcases hbw : baselineOk avgs "whip" with _ | c <;> rw [hbw] at h
    case none =>
      simp only [Option.some.injEq] at h
      subst h
      rcases List.mem_append.mp hp with h12 | h3
      · rcases List.mem_append.mp h12 with h1 | h2
        · cases h1
        · cases h2
      · exact hcount p h3
    case some =>
      rcases htw : teamWhipOpt rows with _ | w <;> rw [htw] at h
      case none => cases h
      case some =>
        simp only [Option.some.injEq] at h
        subst h
        rcases List.mem_append.mp hp with h12 | h3
        · rcases List.mem_append.mp h12 with h1 | h2
          · cases h1
          · simp only [List.mem_singleton] at h2
            subst h2
            exact ⟨rateSpread_bounds _ _, by simp⟩
        · exact hcount p h3
  case some =>
    rcases hte : teamEraOpt rows with _ | e <;> rw [hte] at h
    case none =>
      rcases hbw : baselineOk avgs "whip" with _ | c <;> rw [hbw] at h
      · cases h
      · rcases htw : teamWhipOpt rows with _ | w <;> rw [htw] at h <;> cases h
    case some =>
      rcases hbw : baselineOk avgs "whip" with _ | c <;> rw [hbw] at h
      case none =>
        simp only [Option.some.injEq] at h
        subst h
        rcases List.mem_append.mp hp with h12 | h3
        · rcases List.mem_append.mp h12 with h1 | h2
          · simp only [List.mem_singleton] at h1
            subst h1
            exact ⟨rateSpread_bounds _ _, by simp⟩
          · cases h2
        · exact hcount p h3
      case some =>
        rcases htw : teamWhipOpt rows with _ | w <;> rw [htw] at h
        case none => cases h
        case some =>
          simp only [Option.some.injEq] at h
          subst h
          rcases List.mem_append.mp hp with h12 | h3
          · rcases List.mem_append.mp h12 with h1 | h2
            · simp only [List.mem_singleton] at h1
              subst h1
              exact ⟨rateSpread_bounds _ _, by simp⟩
            · simp only [List.mem_singleton] at h2
              subst h2
              exact ⟨rateSpread_bounds _ _, by simp⟩
          · exact hcount p h3

/-- Claim C3, amended: whenever the category analysis completes (no NaN
abort), every emitted rating is an integer in the closed interval [1,10];
the zero-weight-denominator inputs witnessed separately are the ones on
which it does not complete. -/
theorem ratings_bounded_when_complete (players : List Player) (avgs : StatDict)
    (rs : List (String × ℤ)) (h : analyzeCategories players avgs = some rs) :
    ∀ p ∈ rs, 1 ≤ p.2 ∧ p.2 ≤ 10 := by
  intro p hp
  simp only [analyzeCategories] at h
  rcases hb : (if ((players.filter isBatter).map statsOf).isEmpty then
      some ([] : List (String × ℤ))
    else battingRatings ((players.filter isBatter).map statsOf) avgs) with _ | br <;>
    rw [hb] at h
  · rcases hq : (if ((players.filter isPitcher).map statsOf).isEmpty then
        some ([] : List (String × ℤ))
      else pitchingRatings ((players.filter isPitcher).map statsOf) avgs) with _ | pr <;>
      rw [hq] at h <;> cases h
  · rcases hq : (if ((players.filter isPitcher).map statsOf).isEmpty then
        some ([] : List (String × ℤ))
      else pitchingRatings ((players.filter isPitcher).map statsOf) avgs) with _ | pr <;>
      rw [hq] at h
    · cases h
    · simp only [Option.some.injEq] at h
      subst h
      rcases List.mem_append.mp hp with h1 | h2
      · by_cases hbe : ((players.filter isBatter).map statsOf).isEmpty
        · rw [if_pos hbe] at hb
          simp only [Option.some.injEq] at hb
          subst hb
          cases h1
        · rw [if_neg hbe] at hb
          exact ((battingRatings_spec _ _ _ hb) p h1).1
      · by_cases hpe : ((players.filter isPitcher).map statsOf).isEmpty
        · rw [if_pos hpe] at hq
          simp only [Option.some.injEq] at hq
          subst hq
          cases h2
        · rw [if_neg hpe] at hq
          exact ((pitchingRatings_spec _ _ _ hq) p h2).1

/-- Witness for the amended C3 on an analysis that completes. -/
theorem ratings_bounded_when_complete_witness :
    1 ≤ (("rbi", (10 : ℤ)) : String × ℤ).2 ∧ (("rbi", (10 : ℤ)) : String × ℤ).2 ≤ 10 := by
  have hev : analyzeCategories [⟨"1B", some [("batting_avg", 3 / 10), ("rbi", 20)]⟩]
      [("rbi", 20)] = some [("rbi", 10)] := by
    simp [analyzeCategories, battingRatings, pitchingRatings, optRating, baselineOk,
      teamAvgOpt, teamEraOpt, teamWhipOpt, div0, rateCount, pyInt, hasCol, colSum,
      colProdSum, lookupStat, isBatter, isPitcher, statsTruthy, statsOf, List.filter,
      List.find?]
  exact ratings_bounded_when_complete _ _ _ hev ("rbi", 10) (by simp)

/-- Claim C10: batting-category ratings can only be emitted when some
rostered player's stats mapping has the key `batting_avg`, and
pitching-category ratings only when some player's stats mapping has the
key `era`, whatever the league baselines are. -/
theorem ratings_require_stat_type_presence (players : List Player) (avgs : StatDict)
    (rs : List (String × ℤ)) (h : analyzeCategories players avgs = some rs) :
    ((∀ p ∈ players, (lookupStat (statsOf p) "batting_avg").isSome = false) →
      ∀ q ∈ rs, q.1 ∉ (["home_runs", "rbi", "stolen_bases", "batting_avg"] : List String)) ∧
    ((∀ p ∈ players, (lookupStat (statsOf p) "era").isSome = false) →
      ∀ q ∈ rs, q.1 ∉ (["era", "whip", "wins", "saves", "strikeouts"] : List String)) := by
  constructor
  · intro hno q hq
    have hfil : players.filter isBatter = [] := by
      rw [List.filter_eq_nil]
      intro p hp
      simp [isBatter, hno p hp]
    simp only [analyzeCategories, hfil, List.map_nil, List.isEmpty_nil, if_true,
      reduceIte] at h
    rcases hpr : (if ((players.filter isPitcher).map statsOf).isEmpty then
        some ([] : List (String × ℤ))
      else pitchingRatings ((players.filter isPitcher).map statsOf) avgs) with _ | pr <;>
      rw [hpr] at h
    · cases h
    · simp only [List.nil_append, Option.some.injEq] at h
      subst h
      by_cases hpe : ((players.filter isPitcher).map statsOf).isEmpty
      · rw [if_pos hpe] at hpr
        simp only [Option.some.injEq] at hpr
        subst hpr
        cases hq
      · rw [if_neg hpe] at hpr
        have hkey := ((pitchingRatings_spec _ _ _ hpr) q hq).2
        have hdisj : ∀ s ∈ (["era", "whip", "wins", "saves", "strikeouts"] : List String),
            s ∉ (["home_runs", "rbi", "stolen_bases", "batting_avg"] : List String) := by
          decide
        exact hdisj q.1 hkey
  · intro hno q hq
    have hfil : players.filter isPitcher = [] := by
      rw [List.filter_eq_nil]
      intro p hp
      simp [isPitcher, hno p hp]
    simp only [analyzeCategories, hfil, List.map_nil, List.isEmpty_nil, if_true,
      reduceIte] at h
    rcases hbr : (if ((players.filter isBatter).map statsOf).isEmpty then
        some ([] : List (String × ℤ))
      else battingRatings ((players.filter isBatter).map statsOf) avgs) with _ | br <;>
      rw [hbr] at h
    · cases h
    · simp only [List.append_nil, Option.some.injEq] at h
      subst h
      by_cases hbe : ((players.filter isBatter).map statsOf).isEmpty
      · rw [if_pos hbe] at hbr
        simp only [Option.some.injEq] at hbr
        subst hbr
        cases hq
      · rw [if_neg hbe] at hbr
        have hkey := ((battingRatings_spec _ _ _ hbr) q hq).2
        have hdisj : ∀ s ∈ (["home_runs", "rbi", "stolen_bases", "batting_avg"] : List String),
            s ∉ (["era", "whip", "wins", "saves", "strikeouts"] : List String) := by
          decide
        exact hdisj q.1 hkey

/-- Witness for C10 on a pitcher-only roster: the single emitted rating is
not a batting category. -/
theorem ratings_require_stat_type_presence_witness :
    (("era", (10 : ℤ)) : String × ℤ).1 ∉
      (["home_runs", "rbi", "stolen_bases", "batting_avg"] : List String) := by
  have hev : analyzeCategories [⟨"P", some [("era", 3), ("innings_pitched", 9)]⟩]
      [("era", 4)] = some [("era", 10)] := by
    simp [analyzeCategories, battingRatings, pitchingRatings, optRating, baselineOk,
      teamAvgOpt, teamEraOpt, teamWhipOpt, div0, rateSpread, pyInt, hasCol, colSum,
      colProdSum, lookupStat, isBatter, isPitcher, statsTruthy, statsOf, List.filter,
      List.find?]
    rw [if_neg (by norm_num)]
    norm_num
  exact (ratings_require_stat_type_presence _ _ _ hev).1 (by decide) ("era", 10) (by simp)
